import Mathlib

/-!
Shallow embedding of the sign-language video pipeline (`src/asl.py`).

The program resolves each caption word to a lexicon entry (exact match,
then base form via a morphology service, then synonym via a synonym
service), downloads and post-processes a clip for the resolved entry,
and finally sorts the collected clip paths by their numeric index and
concatenates them in bounded-size batches.

External effects are modelled explicitly:
* the spaCy lemmatizer (`get_base_form`) is an oracle that may raise
  (it is the only call in the per-token path that is not wrapped in a
  try/except in the source), so it returns `Except String String`;
* the Datamuse synonym queries are oracles returning the list the
  source would see after its own error handling (a request failure is
  already caught in the source and turned into the empty list);
* `download_youtube_video` and `process_video` catch all their errors
  and return booleans, so they are boolean oracles;
* every externally visible call is recorded in an event log so that
  claims about which services are invoked can be stated.
-/

/-- One record of the lexicon data source (`asl_videos.json`): the source
reads `clean_text`, `url`, `start_time`, `end_time` with `dict.get`, so the
last three are optional. -/
structure Entry where
  clean_text : String
  url : Option String
  start_time : Option Int
  end_time : Option Int
deriving Repr, DecidableEq

/-- Externally visible calls made while processing a token. -/
inductive Event where
  | lexiconCheck (word : String)
  | baseFormCall (word : String)
  | synonymQuery (word : String)
  | contextualSynonymQuery (word : String) (prev_word next_word : Option String)
  | downloadCall (url : String) (path : String)
  | processCall (path : String) (start_time end_time : Int)
deriving Repr, DecidableEq

/-- `true` exactly on lexicon membership tests (`check_word_in_asl_data`). -/
def Event.isLexiconCheck : Event → Bool
  | .lexiconCheck _ => true
  | _ => false

/-- `true` exactly on morphology-service calls (`get_base_form`). -/
def Event.isBaseFormCall : Event → Bool
  | .baseFormCall _ => true
  | _ => false

/-- `true` exactly on plain synonym-service queries (`fetch_synonyms`). -/
def Event.isSynonymQuery : Event → Bool
  | .synonymQuery _ => true
  | _ => false

/-- `true` exactly on contextual synonym-service queries
(`fetch_contextual_synonyms`). -/
def Event.isContextualQuery : Event → Bool
  | .contextualSynonymQuery _ _ _ => true
  | _ => false

/-- `true` on any call to one of the two external lookup services
(morphology or synonym); downloads are not lookup services. -/
def Event.isServiceCall : Event → Bool
  | .baseFormCall _ => true
  | .synonymQuery _ => true
  | .contextualSynonymQuery _ _ _ => true
  | _ => false

/-- The oracles standing for the program's external collaborators. -/
structure Env where
  lemmaOf : String → Except String String
  synonyms : String → List String
  contextualSynonyms : String → Option String → Option String → List String
  downloadOk : String → String → Bool
  processOk : String → Int → Int → Bool
  cwd : String

/-- `get_base_form(word)`: `str(nlp(word)[0].lemma_)`. The spaCy call is not
guarded by a try/except in the source, so a failure propagates. -/
def get_base_form (env : Env) (word : String) : Except String String × List Event :=
  (env.lemmaOf word, [Event.baseFormCall word])

/-- `get_synonym(word, prev_word, next_word)`: queries the synonym service;
if the plain list is empty the word itself is returned (no contextual query
is made in that case); otherwise, when context is present, a contextual
query is issued and its first result supersedes the plain first result. -/
def get_synonym (env : Env) (word : String) (prev_word next_word : Option String) :
    String × List Event :=
  match env.synonyms word with
  | [] => (word, [Event.synonymQuery word])
  | s :: _ =>
    if prev_word.isSome || next_word.isSome then
      match env.contextualSynonyms word prev_word next_word with
      | c :: _ =>
        (c, [Event.synonymQuery word, Event.contextualSynonymQuery word prev_word next_word])
      | [] =>
        (s, [Event.synonymQuery word, Event.contextualSynonymQuery word prev_word next_word])
    else (s, [Event.synonymQuery word])

/-- Zero-padded decimal rendering, as in Python's `%0Nd` format. -/
def padZeros (width : Nat) (n : Nat) : String :=
  let s := toString n
  String.mk (List.replicate (width - s.length) '0') ++ s

/-- The per-clip file name  built in `attempt_download_video`
(Python: videos/ then the order zero-padded to five digits, an
underscore, the word, and .mp4). -/
def video_name (order : Nat) (word : String) : String :=
  "videos/" ++ padZeros 5 order ++ "_" ++ word ++ ".mp4"

/-- `os.path.join(os.getcwd(), video_name)`. -/
def download_path (env : Env) (order : Nat) (word : String) : String :=
  env.cwd ++ "/" ++ video_name order word

/-- `check_word_in_asl_data(word_to_check)`: the exact-key lexicon lookup. -/
def check_word_in_asl_data (asl_data : List Entry) (word_to_check : String) : List Entry :=
  asl_data.filter (fun entry => entry.clean_text == word_to_check)

/-- The `for item in word_occurrences` loop of `attempt_download_video`:
acquisition is attempted against each candidate entry in lexicon order;
the first candidate whose download and post-processing both succeed wins;
candidates with a falsy `url` or missing times are skipped without a call. -/
def download_loop (env : Env) (order : Nat) (word : String) :
    List Entry → Option String × List Event
  | [] => (none, [])
  | item :: rest =>
    match item.url, item.start_time, item.end_time with
    | some url, some start_time, some end_time =>
      if url != "" then
        let p := download_path env order word
        if env.downloadOk url p then
          if env.processOk p start_time end_time then
            (some p, [Event.downloadCall url p, Event.processCall p start_time end_time])
          else
            let r := download_loop env order word rest
            (r.1, Event.downloadCall url p :: Event.processCall p start_time end_time :: r.2)
        else
          let r := download_loop env order word rest
          (r.1, Event.downloadCall url p :: r.2)
      else download_loop env order word rest
    | _, _, _ => download_loop env order word rest

/-- `attempt_download_video(word, asl_data, order, prev_word, next_word,
is_base_form, is_synonym)`.

The source recursion is bounded in practice (every recursive call is made
with a word already known to have lexicon occurrences, so the callee takes
the download branch immediately); Lean cannot see that syntactically, so a
fuel parameter drives the recursion.  `attempt_fuel_stable` below proves
the result is independent of the fuel from 2 on, which is the termination
fact itself.

Branches, in source order for a word with no exact occurrences:
1. if not `is_base_form`: morphology lookup, recurse on the base form if it
   has occurrences;
2. if not `is_synonym`: synonym lookup, recurse on the synonym if it has
   occurrences;
3. if `is_synonym` and not `is_base_form`: morphology lookup of the current
   word again, recurse if its result has occurrences;
4. otherwise `None`. -/
def attempt_download_video (env : Env) (asl_data : List Entry) :
    Nat → String → Nat → Option String → Option String → Bool → Bool →
    Except String (Option String) × List Event
  | 0, _, _, _, _, _, _ => (Except.ok none, [])
  | fuel + 1, word, order, prev_word, next_word, is_base_form, is_synonym =>
    let word_occurrences := check_word_in_asl_data asl_data word
    if word_occurrences.isEmpty then
      let base_step : Except String (Option (Option String)) × List Event :=
        if is_base_form then (Except.ok none, [])
        else
          match get_base_form env word with
          | (Except.error e, evb) => (Except.error e, evb)
          | (Except.ok base_word, evb) =>
            let base_word_occurrences := check_word_in_asl_data asl_data base_word
            let evb := evb ++ [Event.lexiconCheck base_word]
            if base_word_occurrences.isEmpty then (Except.ok none, evb)
            else
              match attempt_download_video env asl_data fuel base_word order
                  prev_word next_word true false with
              | (Except.error e, ev2) => (Except.error e, evb ++ ev2)
              | (Except.ok r, ev2) => (Except.ok (some r), evb ++ ev2)
      match base_step with
      | (Except.error e, evb) => (Except.error e, Event.lexiconCheck word :: evb)
      | (Except.ok (some r), evb) => (Except.ok r, Event.lexiconCheck word :: evb)
      | (Except.ok none, evb) =>
        let syn_step : Option (Except String (Option String)) × List Event :=
          if is_synonym then (none, [])
          else
            match get_synonym env word prev_word next_word with
            | (synonym, evs) =>
              let synonym_occurrences := check_word_in_asl_data asl_data synonym
              let evs := evs ++ [Event.lexiconCheck synonym]
              if synonym_occurrences.isEmpty then (none, evs)
              else
                match attempt_download_video env asl_data fuel synonym order
                    prev_word next_word false true with
                | (r, ev2) => (some r, evs ++ ev2)
        match syn_step with
        | (some r, evs) => (r, Event.lexiconCheck word :: (evb ++ evs))
        | (none, evs) =>
          if is_synonym && !is_base_form then
            match get_base_form env word with
            | (Except.error e, evc) =>
              (Except.error e, Event.lexiconCheck word :: (evb ++ evs ++ evc))
            | (Except.ok base_word_of_synonym, evc) =>
              let occ := check_word_in_asl_data asl_data base_word_of_synonym
              let evc := evc ++ [Event.lexiconCheck base_word_of_synonym]
              if occ.isEmpty then
                (Except.ok none, Event.lexiconCheck word :: (evb ++ evs ++ evc))
              else
                match attempt_download_video env asl_data fuel base_word_of_synonym order
                    prev_word next_word true true with
                | (r, ev2) => (r, Event.lexiconCheck word :: (evb ++ evs ++ evc ++ ev2))
          else (Except.ok none, Event.lexiconCheck word :: (evb ++ evs))
    else
      let r := download_loop env order word word_occurrences
      (Except.ok r.1, Event.lexiconCheck word :: r.2)

/-- Fuel handed to `attempt_download_video` at its entry point; any value
from 2 on gives the same result (`attempt_fuel_stable`). -/
def resolveFuel : Nat := 4

/-- The normalization of `process_subtitle_data`:
`word.replace(" ", "").lower()`, i.e. every space character removed and
every character lowercased, spelled out over the character list. -/
def normalize_word (word : String) : String :=
  String.mk ((word.data.filter (fun c => c != ' ')).map Char.toLower)

/-- `process_subtitle_data(word, asl_data, order)`: normalizes the word
(remove internal spaces, lowercase) and runs the fallback chain with no
context and both cycle-guard flags cleared. -/
def process_subtitle_data (env : Env) (asl_data : List Entry) (word : String) (order : Nat) :
    Except String (Option String) × List Event :=
  attempt_download_video env asl_data resolveFuel (normalize_word word) order none none false false

/-! ### Sorting of collected clip paths (line 213 of the source)

`video_paths.sort(key=lambda x: int(re.search(r'\d+', os.path.basename(x)).group()))`:
paths are sorted by the numeric value of the first run of digits in the
file's base name.  Python's sort is stable; `List.mergeSort` is the
matching stable sort here.  `re.search` returning no match would raise in
Python; the key of a digit-free name is modelled as 0, a case that never
arises for the generated paths, which always start with the padded index. -/

/-- `os.path.basename`: the part after the last path separator, spelled
out over the character list. -/
def basename (p : String) : String :=
  String.mk ((p.data.reverse.takeWhile (fun c => c != '/')).reverse)

/-- The first maximal run of digit characters in a string
(the match of the regular expression for one-or-more digits). -/
def firstDigitRun (s : String) : List Char :=
  (s.toList.dropWhile (fun c => !c.isDigit)).takeWhile (fun c => c.isDigit)

/-- Decimal value of a digit string (`int` applied to the regex match). -/
def digitsToNat (l : List Char) : Nat :=
  l.foldl (fun a c => a * 10 + (c.toNat - '0'.toNat)) 0

/-- The sort key of line 213. -/
def sortKey (p : String) : Nat :=
  digitsToNat (firstDigitRun (basename p))

/-- The in-place sort of line 213, as a function. -/
def sortVideoPaths (video_paths : List String) : List String :=
  video_paths.mergeSort (fun a b => sortKey a ≤ sortKey b)

/-! ### Assembler (`batch_concatenate_clips`) -/

/-- `video_paths[i:i+batch_size]` for `i in range(0, len(video_paths),
batch_size)`: the list cut into consecutive chunks of at most
`batch_size` elements.  Python raises on a zero step; the `batch_size = 0`
case (never used: the program passes 10) is mapped to no chunks. -/
def chunkList (batch_size : Nat) (l : List α) : List (List α) :=
  match l with
  | [] => []
  | a :: rest =>
    if _h : batch_size = 0 then []
    else
      (a :: rest).take batch_size :: chunkList batch_size ((a :: rest).drop batch_size)
  termination_by l.length
  decreasing_by
    simp only [List.length_drop, List.length_cons]
    omega

/-- A concatenated clip is identified with the ordered list of source clip
paths it contains; merging is list concatenation.  The trace records every
observable action of `batch_concatenate_clips`:
* `batches`: the input groups handed to the per-batch merge calls;
* `batch_video_paths`: the intermediate artifact paths written;
* `merge_calls`: the arity of every `concatenate_videoclips` call, in
  call order (one per batch, then the final one over the batch clips);
* `final_clip`: the content (clip order) of the final artifact;
* `removed`: the paths deleted at the end. -/
structure AssembleTrace where
  batches : List (List String)
  batch_video_paths : List String
  merge_calls : List Nat
  final_clip : List String
  removed : List String
deriving Repr, DecidableEq

/-- The intermediate artifact name
(the output path, then _batch, the number zero-padded to three digits, and .mp4). -/
def batch_output_path (output_path : String) (batch_number : Nat) : String :=
  output_path ++ "_batch" ++ padZeros 3 batch_number ++ ".mp4"

/-- `batch_concatenate_clips(video_paths, batch_size, output_path)`:
cuts the paths into batches, merges and writes each batch, then merges
the in-memory batch clips into the final artifact and removes every
intermediate batch artifact.  Note the final merge is invoked
unconditionally, whatever the number of batches. -/
def batch_concatenate_clips (video_paths : List String) (batch_size : Nat)
    (output_path : String) : AssembleTrace :=
  let batches := chunkList batch_size video_paths
  let batch_clips := batches
  let batch_video_paths :=
    (List.range batches.length).map (batch_output_path output_path)
  { batches := batches
  , batch_video_paths := batch_video_paths
  , merge_calls := batches.map List.length ++ [batch_clips.length]
  , final_clip := batch_clips.flatten
  , removed := batch_video_paths }

/-! ### Main driver (`__main__`)

The source submits one `process_subtitle_data` task per word, then walks
the futures in submission order calling `future.result()`, which re-raises
any exception the worker raised; a truthy result is appended to
`video_paths`.  Iterating the futures in submission order and calling
`result()` on each makes the collection sequential in submission order,
which the model below reproduces. -/

/-- The future-collection loop of the main driver: words paired with their
submission index, walked in order; an exception raised inside a worker is
re-raised by `future.result()` and aborts the loop (and the run). -/
def collect_video_paths (env : Env) (asl_data : List Entry) :
    List (Nat × String) → Except String (List String)
  | [] => Except.ok []
  | (idx, word) :: rest =>
    match (process_subtitle_data env asl_data word idx).1 with
    | Except.error e => Except.error e
    | Except.ok none => collect_video_paths env asl_data rest
    | Except.ok (some path) =>
      match collect_video_paths env asl_data rest with
      | Except.error e => Except.error e
      | Except.ok paths => Except.ok (path :: paths)

/-- The tail of `__main__` after tokenization: collect the per-token
results, sort the successful paths by numeric index, and assemble with
`batch_size = 10`. -/
def run_main (env : Env) (asl_data : List Entry) (subtitle_data : List String) :
    Except String AssembleTrace :=
  match collect_video_paths env asl_data subtitle_data.enum with
  | Except.error e => Except.error e
  | Except.ok video_paths =>
    Except.ok (batch_concatenate_clips (sortVideoPaths video_paths) 10 "concatenated_video.mp4")

/-! ### Concrete environments and datasets used as test inputs -/

/-- An environment whose services echo their input, with all downloads and
post-processing succeeding. -/
def envEcho : Env :=
  { lemmaOf := fun w => Except.ok w
  , synonyms := fun _ => []
  , contextualSynonyms := fun _ _ _ => []
  , downloadOk := fun _ _ => true
  , processOk := fun _ _ _ => true
  , cwd := "/home/user" }

/-- A one-entry lexicon holding the word hello. -/
def dataHello : List Entry :=
  [{ clean_text := "hello", url := some "https://yt/v1", start_time := some 0,
     end_time := some 2 }]

/-- Environment for the dead base-form-of-synonym branch: the base form of
the token is b (not in the lexicon), its synonym is s (not in the
lexicon), and the base form of the synonym s is x, which is the only
lexicon key. -/
def envDeadBranch : Env :=
  { lemmaOf := fun w => if w == "w" then Except.ok "b"
      else if w == "s" then Except.ok "x" else Except.ok w
  , synonyms := fun w => if w == "w" then ["s"] else []
  , contextualSynonyms := fun _ _ _ => []
  , downloadOk := fun _ _ => true
  , processOk := fun _ _ _ => true
  , cwd := "/home/user" }

/-- A one-entry lexicon holding only the key x. -/
def dataX : List Entry :=
  [{ clean_text := "x", url := some "https://yt/vx", start_time := some 0,
     end_time := some 1 }]

/-- An echo environment in which every download fails. -/
def envDownloadsFail : Env :=
  { lemmaOf := fun w => Except.ok w
  , synonyms := fun _ => []
  , contextualSynonyms := fun _ _ _ => []
  , downloadOk := fun _ _ => false
  , processOk := fun _ _ _ => true
  , cwd := "/home/user" }

/-- Environment for the contextual-synonym scenario: the word happy has
plain synonyms glad and joyful and contextual synonym content. -/
def envContext : Env :=
  { lemmaOf := fun w => Except.ok w
  , synonyms := fun w => if w == "happy" then ["glad", "joyful"] else []
  , contextualSynonyms := fun w _ _ => if w == "happy" then ["content"] else []
  , downloadOk := fun _ _ => true
  , processOk := fun _ _ _ => true
  , cwd := "/home/user" }

/-- A one-entry lexicon holding only the key content. -/
def dataContent : List Entry :=
  [{ clean_text := "content", url := some "https://yt/vc", start_time := some 3,
     end_time := some 5 }]

/-- An echo environment whose morphology service raises on the word a. -/
def envBoom : Env :=
  { lemmaOf := fun w => if w == "a" then Except.error "boom" else Except.ok w
  , synonyms := fun _ => []
  , contextualSynonyms := fun _ _ _ => []
  , downloadOk := fun _ _ => true
  , processOk := fun _ _ _ => true
  , cwd := "/home/user" }

/-! ### Step lemmas for the fallback chain

One lemma per branch of `attempt_download_video`.  Every recursive call of
the source is made with a word already known to have occurrences, so the
step lemmas reduce any run of the chain in at most two steps. -/

/-- A word with exact occurrences goes straight to the acquisition loop:
no morphology call, no synonym call, no recursion. -/
theorem attempt_found (env : Env) (asl_data : List Entry) (k : Nat) (word : String)
    (order : Nat) (prev_word next_word : Option String) (b s : Bool)
    (h : (check_word_in_asl_data asl_data word).isEmpty = false) :
    attempt_download_video env asl_data (k + 1) word order prev_word next_word b s =
      (Except.ok (download_loop env order word (check_word_in_asl_data asl_data word)).1,
        Event.lexiconCheck word ::
          (download_loop env order word (check_word_in_asl_data asl_data word)).2) := by
  simp [attempt_download_video, h]

/-- No exact occurrences and the morphology service raises: the exception
propagates out of the chain. -/
theorem attempt_lemma_error (env : Env) (asl_data : List Entry) (k : Nat) (word : String)
    (order : Nat) (prev_word next_word : Option String) (e : String)
    (h : (check_word_in_asl_data asl_data word).isEmpty = true)
    (hb : env.lemmaOf word = Except.error e) :
    attempt_download_video env asl_data (k + 1) word order prev_word next_word false false =
      (Except.error e, [Event.lexiconCheck word, Event.baseFormCall word]) := by
  simp [attempt_download_video, get_base_form, h, hb]

/-- No exact occurrences, but the base form has some: the chain recurses on
the base form with the base-form flag set. -/
theorem attempt_base_found (env : Env) (asl_data : List Entry) (k : Nat) (word : String)
    (order : Nat) (prev_word next_word : Option String) (base_word : String)
    (h : (check_word_in_asl_data asl_data word).isEmpty = true)
    (hb : env.lemmaOf word = Except.ok base_word)
    (hbw : (check_word_in_asl_data asl_data base_word).isEmpty = false) :
    attempt_download_video env asl_data (k + 1) word order prev_word next_word false false =
      ((attempt_download_video env asl_data k base_word order prev_word next_word true false).1,
        Event.lexiconCheck word :: Event.baseFormCall word :: Event.lexiconCheck base_word ::
          (attempt_download_video env asl_data k base_word order prev_word next_word
            true false).2) := by
  rcases hr : attempt_download_video env asl_data k base_word order prev_word next_word
      true false with ⟨res, ev2⟩
  cases res <;> simp [attempt_download_video, get_base_form, h, hb, hbw, hr]

/-- No exact occurrences, base form not in the lexicon, but the synonym
has occurrences: the chain recurses on the synonym with the synonym flag
set. -/
theorem attempt_synonym_found (env : Env) (asl_data : List Entry) (k : Nat) (word : String)
    (order : Nat) (prev_word next_word : Option String) (base_word synonym : String)
    (evs0 : List Event)
    (h : (check_word_in_asl_data asl_data word).isEmpty = true)
    (hb : env.lemmaOf word = Except.ok base_word)
    (hbw : (check_word_in_asl_data asl_data base_word).isEmpty = true)
    (hg : get_synonym env word prev_word next_word = (synonym, evs0))
    (hsw : (check_word_in_asl_data asl_data synonym).isEmpty = false) :
    attempt_download_video env asl_data (k + 1) word order prev_word next_word false false =
      ((attempt_download_video env asl_data k synonym order prev_word next_word false true).1,
        Event.lexiconCheck word :: Event.baseFormCall word :: Event.lexiconCheck base_word ::
          (evs0 ++ [Event.lexiconCheck synonym] ++
            (attempt_download_video env asl_data k synonym order prev_word next_word
              false true).2)) := by
  rcases hr : attempt_download_video env asl_data k synonym order prev_word next_word
      false true with ⟨res, ev2⟩
  simp [attempt_download_video, get_base_form, h, hb, hbw, hg, hsw, hr]

/-- No exact occurrences, base form not in the lexicon, synonym not in the
lexicon: with both flags initially cleared the guard of the
base-form-of-synonym branch is false, so the chain gives up. -/
theorem attempt_exhausted (env : Env) (asl_data : List Entry) (k : Nat) (word : String)
    (order : Nat) (prev_word next_word : Option String) (base_word synonym : String)
    (evs0 : List Event)
    (h : (check_word_in_asl_data asl_data word).isEmpty = true)
    (hb : env.lemmaOf word = Except.ok base_word)
    (hbw : (check_word_in_asl_data asl_data base_word).isEmpty = true)
    (hg : get_synonym env word prev_word next_word = (synonym, evs0))
    (hsw : (check_word_in_asl_data asl_data synonym).isEmpty = true) :
    attempt_download_video env asl_data (k + 1) word order prev_word next_word false false =
      (Except.ok none,
        Event.lexiconCheck word :: Event.baseFormCall word :: Event.lexiconCheck base_word ::
          (evs0 ++ [Event.lexiconCheck synonym])) := by
  simp [attempt_download_video, get_base_form, h, hb, hbw, hg, hsw]

/-- Every event recorded by the acquisition loop is a media call
(download or post-processing), never a lexicon lookup and never a call to
one of the two external lookup services. -/
theorem download_loop_media_only (env : Env) (order : Nat) (word : String) :
    ∀ items : List Entry,
      (download_loop env order word items).2.filter
        (fun e => e.isLexiconCheck || e.isServiceCall) = [] := by
  intro items
  induction items with
  | nil => simp [download_loop]
  | cons item rest ih =>
    obtain ⟨ct, u, st, en⟩ := item
    cases u with
    | none => simpa [download_loop] using ih
    | some u =>
      cases st with
      | none => simpa [download_loop] using ih
      | some st =>
        cases en with
        | none => simpa [download_loop] using ih
        | some en =>
          by_cases h1 : u != ""
          · by_cases h2 : env.downloadOk u (download_path env order word)
            · by_cases h3 : env.processOk (download_path env order word) st en
              · simp [download_loop, h1, h2, h3, Event.isLexiconCheck, Event.isServiceCall]
              · simp [download_loop, h1, h2, h3, Event.isLexiconCheck, Event.isServiceCall]
                intro a ha
                simpa [Event.isLexiconCheck, Event.isServiceCall, not_or] using
                  List.filter_eq_nil_iff.mp ih a ha
            · simp [download_loop, h1, h2, Event.isLexiconCheck, Event.isServiceCall]
              intro a ha
              simpa [Event.isLexiconCheck, Event.isServiceCall, not_or] using
                List.filter_eq_nil_iff.mp ih a ha
          · simp [download_loop, h1, ih]

/-- Membership form of `download_loop_media_only`. -/
theorem download_loop_no_lookup (env : Env) (order : Nat) (word : String)
    (items : List Entry) :
    ∀ e ∈ (download_loop env order word items).2,
      e.isLexiconCheck = false ∧ e.isServiceCall = false := by
  intro e he
  have h := List.filter_eq_nil_iff.mp (download_loop_media_only env order word items) e he
  constructor
  · cases hx : e.isLexiconCheck
    · rfl
    · simp [hx] at h
  · cases hx : e.isServiceCall
    · rfl
    · simp [hx] at h

/-- Termination of the fallback chain: from the entry point (both
cycle-guard flags cleared) the result does not depend on the fuel once it
is at least 2, because every recursive call is made on a word already
known to have lexicon occurrences and therefore returns without further
recursion. -/
theorem attempt_fuel_stable (env : Env) (asl_data : List Entry) (word : String)
    (order : Nat) (prev_word next_word : Option String) (k : Nat) :
    attempt_download_video env asl_data (k + 2) word order prev_word next_word false false =
      attempt_download_video env asl_data 2 word order prev_word next_word false false := by
  by_cases h : (check_word_in_asl_data asl_data word).isEmpty
  · cases hb : env.lemmaOf word with
    | error e =>
      rw [show k + 2 = (k + 1) + 1 from rfl,
        attempt_lemma_error env asl_data (k + 1) word order prev_word next_word e h hb,
        show (2 : Nat) = 1 + 1 from rfl,
        attempt_lemma_error env asl_data 1 word order prev_word next_word e h hb]
    | ok base_word =>
      by_cases hbw : (check_word_in_asl_data asl_data base_word).isEmpty
      · rcases hg : get_synonym env word prev_word next_word with ⟨synonym, evs0⟩
        by_cases hsw : (check_word_in_asl_data asl_data synonym).isEmpty
        · rw [show k + 2 = (k + 1) + 1 from rfl,
            attempt_exhausted env asl_data (k + 1) word order prev_word next_word base_word
              synonym evs0 h hb hbw hg hsw,
            show (2 : Nat) = 1 + 1 from rfl,
            attempt_exhausted env asl_data 1 word order prev_word next_word base_word
              synonym evs0 h hb hbw hg hsw]
        · rw [show k + 2 = (k + 1) + 1 from rfl,
            attempt_synonym_found env asl_data (k + 1) word order prev_word next_word base_word
              synonym evs0 h hb hbw hg (by simpa using hsw),
            show (2 : Nat) = 1 + 1 from rfl,
            attempt_synonym_found env asl_data 1 word order prev_word next_word base_word
              synonym evs0 h hb hbw hg (by simpa using hsw),
            show k + 1 = k + 1 from rfl,
            attempt_found env asl_data k synonym order prev_word next_word false true
              (by simpa using hsw),
            show (1 : Nat) = 0 + 1 from rfl,
            attempt_found env asl_data 0 synonym order prev_word next_word false true
              (by simpa using hsw)]
      · rw [show k + 2 = (k + 1) + 1 from rfl,
          attempt_base_found env asl_data (k + 1) word order prev_word next_word base_word h hb
            (by simpa using hbw),
          show (2 : Nat) = 1 + 1 from rfl,
          attempt_base_found env asl_data 1 word order prev_word next_word base_word h hb
            (by simpa using hbw),
          attempt_found env asl_data k base_word order prev_word next_word true false
            (by simpa using hbw),
          show (1 : Nat) = 0 + 1 from rfl,
          attempt_found env asl_data 0 base_word order prev_word next_word true false
            (by simpa using hbw)]
  · rw [show k + 2 = (k + 1) + 1 from rfl,
      attempt_found env asl_data (k + 1) word order prev_word next_word false false
        (by simpa using h),
      show (2 : Nat) = 1 + 1 from rfl,
      attempt_found env asl_data 1 word order prev_word next_word false false
        (by simpa using h)]

/-- The acquisition loop performs no lexicon lookups. -/
theorem dl_count_lex (env : Env) (order : Nat) (word : String) (items : List Entry) :
    (download_loop env order word items).2.countP (fun e => e.isLexiconCheck) = 0 :=
  List.countP_eq_zero.mpr fun e he => by
    simpa using (download_loop_no_lookup env order word items e he).1

/-- The acquisition loop performs no morphology calls. -/
theorem dl_count_base (env : Env) (order : Nat) (word : String) (items : List Entry) :
    (download_loop env order word items).2.countP (fun e => e.isBaseFormCall) = 0 :=
  List.countP_eq_zero.mpr fun e he => by
    have h := (download_loop_no_lookup env order word items e he).2
    cases e <;> simp_all [Event.isServiceCall, Event.isBaseFormCall]

/-- The acquisition loop performs no plain synonym queries. -/
theorem dl_count_syn (env : Env) (order : Nat) (word : String) (items : List Entry) :
    (download_loop env order word items).2.countP (fun e => e.isSynonymQuery) = 0 :=
  List.countP_eq_zero.mpr fun e he => by
    have h := (download_loop_no_lookup env order word items e he).2
    cases e <;> simp_all [Event.isServiceCall, Event.isSynonymQuery]

/-- The acquisition loop performs no contextual synonym queries. -/
theorem dl_count_ctx (env : Env) (order : Nat) (word : String) (items : List Entry) :
    (download_loop env order word items).2.countP (fun e => e.isContextualQuery) = 0 :=
  List.countP_eq_zero.mpr fun e he => by
    have h := (download_loop_no_lookup env order word items e he).2
    cases e <;> simp_all [Event.isServiceCall, Event.isContextualQuery]

/-- Without neighbour context (the only way `process_subtitle_data` calls
it), `get_synonym` performs exactly one plain synonym query and never a
contextual one. -/
theorem get_synonym_no_context (env : Env) (word : String) :
    (get_synonym env word none none).2 = [Event.synonymQuery word] := by
  unfold get_synonym
  cases env.synonyms word <;> simp

/-- `process_subtitle_data` is the fallback chain at fuel 4 on the
normalized word, with no context and cleared flags. -/
theorem process_eq_attempt (env : Env) (asl_data : List Entry) (word : String) (order : Nat) :
    process_subtitle_data env asl_data word order =
      attempt_download_video env asl_data (3 + 1) (normalize_word word) order
        none none false false := rfl

/-- C2: For every token, the fallback chain terminates within at most 4
distinct lookup attempts, even when the morphology or synonym service
returns the original word or the services echo each other's outputs in a
cycle (the environment is fully arbitrary here); each strategy is
attempted at most once per token: at most one morphology call, at most one
plain synonym query and no contextual one from the entry point, and the
result is independent of the recursion fuel from 2 on, which is the
termination of the chain. -/
theorem fallback_four_lookups (env : Env) (asl_data : List Entry) (word : String)
    (order : Nat) :
    (process_subtitle_data env asl_data word order).2.countP
        (fun e => e.isLexiconCheck) ≤ 4 ∧
    (process_subtitle_data env asl_data word order).2.countP
        (fun e => e.isBaseFormCall) ≤ 1 ∧
    (process_subtitle_data env asl_data word order).2.countP
        (fun e => e.isSynonymQuery) ≤ 1 ∧
    (process_subtitle_data env asl_data word order).2.countP
        (fun e => e.isContextualQuery) ≤ 1 ∧
    ∀ k, attempt_download_video env asl_data (k + 2) (normalize_word word) order
          none none false false =
        attempt_download_video env asl_data 2 (normalize_word word) order
          none none false false := by
  have hstab : ∀ k, attempt_download_video env asl_data (k + 2) (normalize_word word) order
        none none false false =
      attempt_download_video env asl_data 2 (normalize_word word) order
        none none false false :=
    fun k => attempt_fuel_stable env asl_data (normalize_word word) order none none k
  rw [process_eq_attempt]
  by_cases h : (check_word_in_asl_data asl_data (normalize_word word)).isEmpty
  · cases hb : env.lemmaOf (normalize_word word) with
    | error e =>
      rw [attempt_lemma_error env asl_data 3 (normalize_word word) order none none e h hb]
      refine ⟨?_, ?_, ?_, ?_, hstab⟩ <;>
        simp [List.countP_cons, Event.isLexiconCheck, Event.isBaseFormCall,
          Event.isSynonymQuery, Event.isContextualQuery]
    | ok base_word =>
      by_cases hbw : (check_word_in_asl_data asl_data base_word).isEmpty
      · rcases hg : get_synonym env (normalize_word word) none none with ⟨synonym, evs0⟩
        have hevs0 : evs0 = [Event.synonymQuery (normalize_word word)] := by
          have h2 := get_synonym_no_context env (normalize_word word)
          rw [hg] at h2
          exact h2
        by_cases hsw : (check_word_in_asl_data asl_data synonym).isEmpty
        · rw [attempt_exhausted env asl_data 3 (normalize_word word) order none none
            base_word synonym evs0 h hb hbw hg hsw, hevs0]
          refine ⟨?_, ?_, ?_, ?_, hstab⟩ <;>
            simp [List.countP_cons, List.countP_append, Event.isLexiconCheck,
              Event.isBaseFormCall, Event.isSynonymQuery, Event.isContextualQuery]
        · rw [attempt_synonym_found env asl_data 3 (normalize_word word) order none none
              base_word synonym evs0 h hb hbw hg (by simpa using hsw),
            attempt_found env asl_data 2 synonym order none none false true
              (by simpa using hsw), hevs0]
          refine ⟨?_, ?_, ?_, ?_, hstab⟩ <;>
            simp only [List.countP_cons, List.countP_append, List.countP_nil,
              dl_count_lex, dl_count_base, dl_count_syn, dl_count_ctx] <;>
            simp [Event.isLexiconCheck, Event.isBaseFormCall, Event.isSynonymQuery,
              Event.isContextualQuery]
      · rw [attempt_base_found env asl_data 3 (normalize_word word) order none none
            base_word h hb (by simpa using hbw),
          attempt_found env asl_data 2 base_word order none none true false
            (by simpa using hbw)]
        refine ⟨?_, ?_, ?_, ?_, hstab⟩ <;>
          simp only [List.countP_cons, List.countP_append, List.countP_nil,
            dl_count_lex, dl_count_base, dl_count_syn, dl_count_ctx] <;>
          simp [Event.isLexiconCheck, Event.isBaseFormCall, Event.isSynonymQuery,
            Event.isContextualQuery]
  · rw [attempt_found env asl_data 3 (normalize_word word) order none none false false
      (by simpa using h)]
    refine ⟨?_, ?_, ?_, ?_, hstab⟩ <;>
      simp only [List.countP_cons, List.countP_append, List.countP_nil,
        dl_count_lex, dl_count_base, dl_count_syn, dl_count_ctx] <;>
      simp [Event.isLexiconCheck, Event.isBaseFormCall, Event.isSynonymQuery,
        Event.isContextualQuery]

/-- The acquisition loop makes no call to either external lookup service. -/
theorem dl_count_service (env : Env) (order : Nat) (word : String) (items : List Entry) :
    (download_loop env order word items).2.countP (fun e => e.isServiceCall) = 0 :=
  List.countP_eq_zero.mpr fun e he => by
    simpa using (download_loop_no_lookup env order word items e he).2

/-- C3: For every token whose normalized text has an exact Lexicon key
match, the Resolver goes straight to acquisition over the exact-match
occurrences and makes zero calls to the morphology or synonym service. -/
theorem exact_match_no_service_calls (env : Env) (asl_data : List Entry) (word : String)
    (order : Nat)
    (h : (check_word_in_asl_data asl_data (normalize_word word)).isEmpty = false) :
    (process_subtitle_data env asl_data word order).1 =
      Except.ok (download_loop env order (normalize_word word)
        (check_word_in_asl_data asl_data (normalize_word word))).1 ∧
    (process_subtitle_data env asl_data word order).2.countP
      (fun e => e.isServiceCall) = 0 := by
  rw [process_eq_attempt,
    attempt_found env asl_data 3 (normalize_word word) order none none false false h]
  refine ⟨rfl, ?_⟩
  simp only [List.countP_cons, dl_count_service]
  simp [Event.isServiceCall]

/-- Witness for C3 at a concrete input: the token Hel Lo normalizes to
hello, which has an exact entry, and processing makes no lookup-service
call. -/
theorem exact_match_no_service_calls_witness :
    (check_word_in_asl_data dataHello (normalize_word "Hel Lo")).isEmpty = false ∧
    ((process_subtitle_data envEcho dataHello "Hel Lo" 3).1 =
      Except.ok (download_loop envEcho 3 (normalize_word "Hel Lo")
        (check_word_in_asl_data dataHello (normalize_word "Hel Lo"))).1 ∧
     (process_subtitle_data envEcho dataHello "Hel Lo" 3).2.countP
       (fun e => e.isServiceCall) = 0) :=
  ⟨rfl, exact_match_no_service_calls envEcho dataHello "Hel Lo" 3 rfl⟩

/-- C1 (code bug): the fourth strategy of the documented priority order —
base form of the synonym — is dead code for every token.  Here the token
w has no exact match, its base form b has no match, its synonym s has no
match, yet the base form of the synonym s is x, which is in the lexicon
and whose acquisition would succeed; the chain nevertheless returns None,
because the guard of the base-form-of-synonym branch
(`is_synonym and not is_base_form`) can never be true when the synonym was
not found: the source only recurses (setting `is_synonym`) on words whose
occurrences are non-empty. -/
theorem resolver_skips_base_of_synonym :
    (process_subtitle_data envDeadBranch dataX "w" 0).1 = Except.ok none ∧
    (check_word_in_asl_data dataX (normalize_word "w")).isEmpty = true ∧
    envDeadBranch.lemmaOf (normalize_word "w") = Except.ok "b" ∧
    (check_word_in_asl_data dataX "b").isEmpty = true ∧
    (get_synonym envDeadBranch (normalize_word "w") none none).1 = "s" ∧
    (check_word_in_asl_data dataX "s").isEmpty = true ∧
    envDeadBranch.lemmaOf "s" = Except.ok "x" ∧
    (check_word_in_asl_data dataX "x").isEmpty = false ∧
    (download_loop envDeadBranch 0 "x" (check_word_in_asl_data dataX "x")).1.isSome = true :=
  ⟨rfl, rfl, rfl, rfl, rfl, rfl, rfl, rfl, rfl⟩

/-- Success of the acquisition loop is exactly the existence of a
candidate entry, in lexicon order, with a usable url and both times
present, whose download and post-processing succeed. -/
theorem download_loop_isSome_iff (env : Env) (order : Nat) (word : String) :
    ∀ items : List Entry,
      (download_loop env order word items).1.isSome = true ↔
        ∃ item ∈ items, ∃ u s e, item.url = some u ∧ (u != "") = true ∧
          item.start_time = some s ∧ item.end_time = some e ∧
          env.downloadOk u (download_path env order word) = true ∧
          env.processOk (download_path env order word) s e = true := by
  intro items
  induction items with
  | nil => simp [download_loop]
  | cons item rest ih =>
    obtain ⟨ct, u, st, en⟩ := item
    cases u with
    | none => simp [download_loop, ih]
    | some u =>
      cases st with
      | none => simp [download_loop, ih]
      | some st =>
        cases en with
        | none => simp [download_loop, ih]
        | some en =>
          by_cases h1 : u != ""
          · by_cases h2 : env.downloadOk u (download_path env order word)
            · by_cases h3 : env.processOk (download_path env order word) st en
              · simp [download_loop, h1, h2, h3]
                left
                simpa using h1
              · simp [download_loop, h1, h2, h3, ih]
            · simp [download_loop, h1, h2, ih]
          · have hu : u = "" := by simpa using h1
            simp [download_loop, h1, ih]
            intro hc hd hp
            exact absurd hu hc

/-- C5 (amended): for a token that resolves to a lexicon key, acquisition
is attempted against each candidate in lexicon order and succeeds exactly
when some candidate succeeds; when every download fails the function
returns None — the very same value it returns for a token with no lexicon
match anywhere, so the source does not distinguish an acquisition failure
from an unresolved token. -/
theorem acquisition_candidates (env : Env) (asl_data : List Entry) (word : String)
    (order : Nat) :
    ((download_loop env order (normalize_word word)
        (check_word_in_asl_data asl_data (normalize_word word))).1.isSome = true ↔
      ∃ item ∈ check_word_in_asl_data asl_data (normalize_word word), ∃ u s e,
        item.url = some u ∧ (u != "") = true ∧ item.start_time = some s ∧
        item.end_time = some e ∧
        env.downloadOk u (download_path env order (normalize_word word)) = true ∧
        env.processOk (download_path env order (normalize_word word)) s e = true) ∧
    ((∀ u p, env.downloadOk u p = false) →
      (check_word_in_asl_data asl_data (normalize_word word)).isEmpty = false →
      (process_subtitle_data env asl_data word order).1 = Except.ok none) ∧
    (∀ base_word synonym evs0,
      (check_word_in_asl_data asl_data (normalize_word word)).isEmpty = true →
      env.lemmaOf (normalize_word word) = Except.ok base_word →
      (check_word_in_asl_data asl_data base_word).isEmpty = true →
      get_synonym env (normalize_word word) none none = (synonym, evs0) →
      (check_word_in_asl_data asl_data synonym).isEmpty = true →
      (process_subtitle_data env asl_data word order).1 = Except.ok none) := by
  refine ⟨download_loop_isSome_iff env order (normalize_word word) _, ?_, ?_⟩
  · intro hfail hmatch
    rw [process_eq_attempt,
      attempt_found env asl_data 3 (normalize_word word) order none none false false hmatch]
    cases hdl : (download_loop env order (normalize_word word)
        (check_word_in_asl_data asl_data (normalize_word word))).1 with
    | none => simp [hdl]
    | some p =>
      exfalso
      have hs : (download_loop env order (normalize_word word)
          (check_word_in_asl_data asl_data (normalize_word word))).1.isSome = true := by
        rw [hdl]; rfl
      rcases (download_loop_isSome_iff env order (normalize_word word) _).mp hs with
        ⟨item, hmem, u, st, en, hurl, hne, hst, hen, hdOk, hpOk⟩
      rw [hfail u (download_path env order (normalize_word word))] at hdOk
      cases hdOk
  · intro base_word synonym evs0 h hb hbw hg hsw
    rw [process_eq_attempt,
      attempt_exhausted env asl_data 3 (normalize_word word) order none none base_word
        synonym evs0 h hb hbw hg hsw]

/-- C5 counterexample to the claim as stated: a token whose only lexicon
candidate's acquisition fails ends with the same outcome value as a token
with no lexicon match at all — the code has no distinct AcquisitionFailed
outcome. -/
theorem acquisition_failed_indistinct :
    (check_word_in_asl_data dataHello (normalize_word "hello")).isEmpty = false ∧
    (check_word_in_asl_data dataHello (normalize_word "zz")).isEmpty = true ∧
    (process_subtitle_data envDownloadsFail dataHello "hello" 0).1 =
      (process_subtitle_data envDownloadsFail dataHello "zz" 1).1 :=
  ⟨rfl, rfl, rfl⟩

/-- Witness for C5: with all downloads failing, the matched token hello
and the unmatched token zz both end in None. -/
theorem acquisition_candidates_witness :
    (process_subtitle_data envDownloadsFail dataHello "hello" 0).1 = Except.ok none ∧
    (process_subtitle_data envDownloadsFail dataHello "zz" 1).1 = Except.ok none :=
  ⟨(acquisition_candidates envDownloadsFail dataHello "hello" 0).2.1 (fun _ _ => rfl) rfl,
   (acquisition_candidates envDownloadsFail dataHello "zz" 1).2.2 "zz" "zz"
     [Event.synonymQuery "zz"] rfl rfl rfl rfl rfl⟩

/-- Unfolding of the batching loop on a non-empty list: one batch of at
most `batch_size` clips, then the batching of the remainder. -/
theorem chunkList_cons_of_ne {α : Type} (bs : Nat) (l : List α) (hl : l ≠ [])
    (hbs : bs ≠ 0) :
    chunkList bs l = l.take bs :: chunkList bs (l.drop bs) := by
  cases l with
  | nil => exact absurd rfl hl
  | cons a rest => rw [chunkList]; simp [hbs]

/-- Batching then merging preserves exactly the input clips in order. -/
theorem chunkList_flatten {α : Type} (bs : Nat) (hbs : bs ≠ 0) :
    ∀ l : List α, (chunkList bs l).flatten = l := by
  have key : ∀ n : Nat, ∀ l : List α, l.length ≤ n → (chunkList bs l).flatten = l := by
    intro n
    induction n with
    | zero =>
      intro l hl
      have hnil : l = [] := List.eq_nil_of_length_eq_zero (Nat.le_zero.mp hl)
      subst hnil
      rw [chunkList]
      rfl
    | succ n ih =>
      intro l hl
      cases l with
      | nil => rw [chunkList]; rfl
      | cons a rest =>
        rw [chunkList_cons_of_ne bs (a :: rest) (by simp) hbs, List.flatten_cons,
          ih ((a :: rest).drop bs) (by
            simp only [List.length_cons] at hl
            simp only [List.length_drop, List.length_cons]
            omega),
          List.take_append_drop]
  exact fun l => key l.length l le_rfl

/-- C7: with batch size 10 and 25 successful clips, the Assembler builds
exactly 3 batches of sizes 10, 10 and 5 in input (index) order, makes one
final merge call over exactly those 3 batch clips, and removes all 3
intermediate batch artifacts. -/
theorem assemble_25_clips (paths : List String) (out : String) (hlen : paths.length = 25) :
    (batch_concatenate_clips paths 10 out).batches.map List.length = [10, 10, 5] ∧
    (batch_concatenate_clips paths 10 out).batches.flatten = paths ∧
    (batch_concatenate_clips paths 10 out).merge_calls = [10, 10, 5, 3] ∧
    (batch_concatenate_clips paths 10 out).final_clip = paths ∧
    (batch_concatenate_clips paths 10 out).batch_video_paths =
      [batch_output_path out 0, batch_output_path out 1, batch_output_path out 2] ∧
    (batch_concatenate_clips paths 10 out).removed =
      (batch_concatenate_clips paths 10 out).batch_video_paths := by
  have h0 : paths ≠ [] := by
    intro h
    rw [h] at hlen
    simp at hlen
  have hc1 : chunkList 10 paths = paths.take 10 :: chunkList 10 (paths.drop 10) :=
    chunkList_cons_of_ne 10 paths h0 (by omega)
  have hd10 : (paths.drop 10).length = 15 := by simp [hlen]
  have h1 : paths.drop 10 ≠ [] := by
    intro h
    rw [h] at hd10
    simp at hd10
  have hc2 : chunkList 10 (paths.drop 10) =
      (paths.drop 10).take 10 :: chunkList 10 ((paths.drop 10).drop 10) :=
    chunkList_cons_of_ne 10 (paths.drop 10) h1 (by omega)
  have hdd : (paths.drop 10).drop 10 = paths.drop 20 := by
    rw [List.drop_drop]
  have hd20 : (paths.drop 20).length = 5 := by simp [hlen]
  have h2 : paths.drop 20 ≠ [] := by
    intro h
    rw [h] at hd20
    simp at hd20
  have hc3 : chunkList 10 (paths.drop 20) =
      (paths.drop 20).take 10 :: chunkList 10 ((paths.drop 20).drop 10) :=
    chunkList_cons_of_ne 10 (paths.drop 20) h2 (by omega)
  have ht20 : (paths.drop 20).take 10 = paths.drop 20 :=
    List.take_of_length_le (by rw [hd20]; omega)
  have hdn : (paths.drop 20).drop 10 = [] :=
    List.drop_eq_nil_of_le (by rw [hd20]; omega)
  have hc4 : chunkList 10 ([] : List String) = [] := by rw [chunkList]
  have hchunk : chunkList 10 paths =
      [paths.take 10, (paths.drop 10).take 10, paths.drop 20] := by
    rw [hc1, hc2, hdd, hc3, ht20, hdn, hc4]
  have hmap : [paths.take 10, (paths.drop 10).take 10, paths.drop 20].map List.length
      = [10, 10, 5] := by
    simp [List.length_take, List.length_drop, hlen]
  have hflat : [paths.take 10, (paths.drop 10).take 10, paths.drop 20].flatten = paths := by
    simp only [List.flatten_cons, List.flatten_nil, List.append_nil]
    rw [← hdd, List.take_append_drop, List.take_append_drop]
  simp only [batch_concatenate_clips, hchunk]
  refine ⟨hmap, hflat, ?_, hflat, ?_, trivial⟩
  · simp [hmap]
  · rfl

/-- Witness for C7 at 25 concrete clip paths. -/
theorem assemble_25_clips_witness :
    ((List.range 25).map (fun i => video_name i "w")).length = 25 ∧
    ((batch_concatenate_clips ((List.range 25).map (fun i => video_name i "w")) 10
        "concatenated_video.mp4").batches.map List.length = [10, 10, 5] ∧
     (batch_concatenate_clips ((List.range 25).map (fun i => video_name i "w")) 10
        "concatenated_video.mp4").batches.flatten =
       (List.range 25).map (fun i => video_name i "w") ∧
     (batch_concatenate_clips ((List.range 25).map (fun i => video_name i "w")) 10
        "concatenated_video.mp4").merge_calls = [10, 10, 5, 3] ∧
     (batch_concatenate_clips ((List.range 25).map (fun i => video_name i "w")) 10
        "concatenated_video.mp4").final_clip =
       (List.range 25).map (fun i => video_name i "w") ∧
     (batch_concatenate_clips ((List.range 25).map (fun i => video_name i "w")) 10
        "concatenated_video.mp4").batch_video_paths =
       [batch_output_path "concatenated_video.mp4" 0,
        batch_output_path "concatenated_video.mp4" 1,
        batch_output_path "concatenated_video.mp4" 2] ∧
     (batch_concatenate_clips ((List.range 25).map (fun i => video_name i "w")) 10
        "concatenated_video.mp4").removed =
       (batch_concatenate_clips ((List.range 25).map (fun i => video_name i "w")) 10
        "concatenated_video.mp4").batch_video_paths) :=
  ⟨by simp, assemble_25_clips ((List.range 25).map (fun i => video_name i "w"))
    "concatenated_video.mp4" (by simp)⟩

/-- C6 (amended): on an empty clip list the Assembler performs zero batch
merges, but the final merge is still invoked — with zero inputs (in the
real program `concatenate_videoclips` raises on an empty list); there is
no distinct nothing-to-assemble outcome in the code. -/
theorem assemble_empty_invokes_final_merge (batch_size : Nat) (output_path : String) :
    batch_concatenate_clips [] batch_size output_path =
      { batches := [], batch_video_paths := [], merge_calls := [0],
        final_clip := [], removed := [] } := by
  simp [batch_concatenate_clips, chunkList]

/-- C6 counterexample to the claim as stated: with zero resolved tokens
the merge service is invoked with zero inputs (the arity-0 call is in the
merge-call trace), contradicting the claimed distinct outcome that avoids
that call. -/
theorem assemble_empty_zero_input_merge :
    0 ∈ (batch_concatenate_clips [] 10 "concatenated_video.mp4").merge_calls ∧
    (batch_concatenate_clips [] 10 "concatenated_video.mp4").batches = [] := by
  simp [batch_concatenate_clips, chunkList]

/-- Line 213 sorts ascending by numeric key. -/
theorem sortVideoPaths_sorted (l : List String) :
    (sortVideoPaths l).Pairwise (fun a b => sortKey a ≤ sortKey b) := by
  have h := @List.sorted_mergeSort String
    (fun a b : String => decide (sortKey a ≤ sortKey b))
    (fun a b c h1 h2 => by
      simp only [decide_eq_true_eq] at h1 h2 ⊢
      omega)
    (fun a b => by
      simp only [Bool.or_eq_true, decide_eq_true_eq]
      omega) l
  exact h.imp (fun hab => by simpa using hab)

/-- C4: the final artifact clip order is a function of the numeric sort
keys alone: the collected path list is sorted by the numeric value of the
index prefix, so any two completion orders (permutations) with pairwise
distinct keys yield the same sorted list, the sorted list is ascending by
numeric key, and the assembled final artifact contains exactly that
sorted list. -/
theorem assembler_order_invariant (l1 l2 : List String) (out : String)
    (hperm : l1.Perm l2)
    (hkeys : l1.Pairwise (fun a b => sortKey a ≠ sortKey b)) :
    sortVideoPaths l1 = sortVideoPaths l2 ∧
    (sortVideoPaths l1).Pairwise (fun a b => sortKey a ≤ sortKey b) ∧
    (batch_concatenate_clips (sortVideoPaths l1) 10 out).final_clip = sortVideoPaths l1 := by
  have hs1 := sortVideoPaths_sorted l1
  have hs2 := sortVideoPaths_sorted l2
  have hp1 : (sortVideoPaths l1).Perm l1 := List.mergeSort_perm l1 _
  have hp2 : (sortVideoPaths l2).Perm l2 := List.mergeSort_perm l2 _
  have hchain : (sortVideoPaths l1).Perm (sortVideoPaths l2) :=
    (hp1.trans hperm).trans hp2.symm
  have hk1 : (sortVideoPaths l1).Pairwise (fun a b => sortKey a ≠ sortKey b) :=
    (List.Perm.pairwise_iff (fun h => Ne.symm h) hp1).mpr hkeys
  have hk2 : (sortVideoPaths l2).Pairwise (fun a b => sortKey a ≠ sortKey b) :=
    (List.Perm.pairwise_iff (fun h => Ne.symm h) hp2).mpr
      ((List.Perm.pairwise_iff (fun h => Ne.symm h) hperm).mp hkeys)
  have hlt1 : (sortVideoPaths l1).Pairwise (fun a b => sortKey a < sortKey b) :=
    (hs1.and hk1).imp (fun hab => lt_of_le_of_ne hab.1 hab.2)
  have hlt2 : (sortVideoPaths l2).Pairwise (fun a b => sortKey a < sortKey b) :=
    (hs2.and hk2).imp (fun hab => lt_of_le_of_ne hab.1 hab.2)
  haveI : IsAntisymm String (fun a b => sortKey a < sortKey b) :=
    ⟨fun a b h1 h2 => absurd (h1.trans h2) (lt_irrefl _)⟩
  have heq : sortVideoPaths l1 = sortVideoPaths l2 :=
    List.eq_of_perm_of_sorted hchain hlt1 hlt2
  refine ⟨heq, hs1, ?_⟩
  simp only [batch_concatenate_clips]
  exact chunkList_flatten 10 (by omega) _

/-- Witness for C4 at two concrete completion orders of three clips. -/
theorem assembler_order_invariant_witness :
    ([video_name 2 "b", video_name 0 "a", video_name 1 "c"].Perm
      [video_name 0 "a", video_name 1 "c", video_name 2 "b"]) ∧
    ([video_name 2 "b", video_name 0 "a", video_name 1 "c"].Pairwise
      (fun a b => sortKey a ≠ sortKey b)) ∧
    (sortVideoPaths [video_name 2 "b", video_name 0 "a", video_name 1 "c"] =
      sortVideoPaths [video_name 0 "a", video_name 1 "c", video_name 2 "b"] ∧
     (sortVideoPaths [video_name 2 "b", video_name 0 "a", video_name 1 "c"]).Pairwise
       (fun a b => sortKey a ≤ sortKey b) ∧
     (batch_concatenate_clips
        (sortVideoPaths [video_name 2 "b", video_name 0 "a", video_name 1 "c"]) 10
        "concatenated_video.mp4").final_clip =
       sortVideoPaths [video_name 2 "b", video_name 0 "a", video_name 1 "c"]) :=
  ⟨by decide, by decide,
   assembler_order_invariant [video_name 2 "b", video_name 0 "a", video_name 1 "c"]
     [video_name 0 "a", video_name 1 "c", video_name 2 "b"] "concatenated_video.mp4"
     (by decide) (by decide)⟩

/-- C8 (amended): there is no resolution cache in the code; a second
lookup of the same normalized text repeats exactly the same sequence of
lexicon checks and external lookup-service calls as the first (the lookup
part of the chain does not depend on the token index), and whenever the
text has no exact lexicon match the repeated lookup performs external
service calls again rather than zero. -/
theorem resolution_not_memoized (env : Env) (asl_data : List Entry) (word : String)
    (order1 order2 : Nat) :
    (process_subtitle_data env asl_data word order1).2.filter
        (fun e => e.isLexiconCheck || e.isServiceCall) =
      (process_subtitle_data env asl_data word order2).2.filter
        (fun e => e.isLexiconCheck || e.isServiceCall) ∧
    ((check_word_in_asl_data asl_data (normalize_word word)).isEmpty = true →
      (process_subtitle_data env asl_data word order2).2.countP
        (fun e => e.isServiceCall) ≠ 0) := by
  by_cases h : (check_word_in_asl_data asl_data (normalize_word word)).isEmpty
  · cases hb : env.lemmaOf (normalize_word word) with
    | error e =>
      have hf : ∀ o : Nat, (process_subtitle_data env asl_data word o).2.filter
          (fun e => e.isLexiconCheck || e.isServiceCall) =
          [Event.lexiconCheck (normalize_word word),
           Event.baseFormCall (normalize_word word)] := by
        intro o
        rw [process_eq_attempt,
          attempt_lemma_error env asl_data 3 (normalize_word word) o none none e h hb]
        simp [Event.isLexiconCheck, Event.isServiceCall]
      refine ⟨(hf order1).trans (hf order2).symm, fun _ => ?_⟩
      rw [process_eq_attempt,
        attempt_lemma_error env asl_data 3 (normalize_word word) order2 none none e h hb]
      simp [List.countP_cons, Event.isServiceCall]
    | ok base_word =>
      by_cases hbw : (check_word_in_asl_data asl_data base_word).isEmpty
      · rcases hg : get_synonym env (normalize_word word) none none with ⟨synonym, evs0⟩
        have hevs0 : evs0 = [Event.synonymQuery (normalize_word word)] := by
          have h2 := get_synonym_no_context env (normalize_word word)
          rw [hg] at h2
          exact h2
        by_cases hsw : (check_word_in_asl_data asl_data synonym).isEmpty
        · have hf : ∀ o : Nat, (process_subtitle_data env asl_data word o).2.filter
              (fun e => e.isLexiconCheck || e.isServiceCall) =
              [Event.lexiconCheck (normalize_word word),
               Event.baseFormCall (normalize_word word),
               Event.lexiconCheck base_word,
               Event.synonymQuery (normalize_word word),
               Event.lexiconCheck synonym] := by
            intro o
            rw [process_eq_attempt,
              attempt_exhausted env asl_data 3 (normalize_word word) o none none
                base_word synonym evs0 h hb hbw hg hsw, hevs0]
            simp [Event.isLexiconCheck, Event.isServiceCall]
          refine ⟨(hf order1).trans (hf order2).symm, fun _ => ?_⟩
          rw [process_eq_attempt,
            attempt_exhausted env asl_data 3 (normalize_word word) order2 none none
              base_word synonym evs0 h hb hbw hg hsw, hevs0]
          simp [List.countP_cons, List.countP_append, Event.isServiceCall]
        · have hf : ∀ o : Nat, (process_subtitle_data env asl_data word o).2.filter
              (fun e => e.isLexiconCheck || e.isServiceCall) =
              [Event.lexiconCheck (normalize_word word),
               Event.baseFormCall (normalize_word word),
               Event.lexiconCheck base_word,
               Event.synonymQuery (normalize_word word),
               Event.lexiconCheck synonym,
               Event.lexiconCheck synonym] := by
            intro o
            rw [process_eq_attempt,
              attempt_synonym_found env asl_data 3 (normalize_word word) o none none
                base_word synonym evs0 h hb hbw hg (by simpa using hsw),
              attempt_found env asl_data 2 synonym o none none false true
                (by simpa using hsw), hevs0]
            simp only [List.filter_cons, List.filter_append, download_loop_media_only,
              List.append_nil]
            simp [Event.isLexiconCheck, Event.isServiceCall]
          refine ⟨(hf order1).trans (hf order2).symm, fun _ => ?_⟩
          rw [process_eq_attempt,
            attempt_synonym_found env asl_data 3 (normalize_word word) order2 none none
              base_word synonym evs0 h hb hbw hg (by simpa using hsw),
            attempt_found env asl_data 2 synonym order2 none none false true
              (by simpa using hsw), hevs0]
          simp only [List.countP_cons, List.countP_append, dl_count_service]
          simp [Event.isServiceCall]
      · have hf : ∀ o : Nat, (process_subtitle_data env asl_data word o).2.filter
            (fun e => e.isLexiconCheck || e.isServiceCall) =
            [Event.lexiconCheck (normalize_word word),
             Event.baseFormCall (normalize_word word),
             Event.lexiconCheck base_word,
             Event.lexiconCheck base_word] := by
          intro o
          rw [process_eq_attempt,
            attempt_base_found env asl_data 3 (normalize_word word) o none none
              base_word h hb (by simpa using hbw),
            attempt_found env asl_data 2 base_word o none none true false
              (by simpa using hbw)]
          simp only [List.filter_cons, List.filter_append, download_loop_media_only,
            List.append_nil]
          simp [Event.isLexiconCheck, Event.isServiceCall]
        refine ⟨(hf order1).trans (hf order2).symm, fun _ => ?_⟩
        rw [process_eq_attempt,
          attempt_base_found env asl_data 3 (normalize_word word) order2 none none
            base_word h hb (by simpa using hbw),
          attempt_found env asl_data 2 base_word order2 none none true false
            (by simpa using hbw)]
        simp only [List.countP_cons, List.countP_append, dl_count_service]
        simp [Event.isServiceCall]
  · have hf : ∀ o : Nat, (process_subtitle_data env asl_data word o).2.filter
        (fun e => e.isLexiconCheck || e.isServiceCall) =
        [Event.lexiconCheck (normalize_word word)] := by
      intro o
      rw [process_eq_attempt,
        attempt_found env asl_data 3 (normalize_word word) o none none false false
          (by simpa using h)]
      simp only [List.filter_cons, download_loop_media_only]
      simp [Event.isLexiconCheck, Event.isServiceCall]
    exact ⟨(hf order1).trans (hf order2).symm, fun habs => absurd habs h⟩

/-- C8 counterexample to the claim as stated: looking the token happy up
a second time (here as token index 1, after index 0) triggers two external
lookup-service calls, not zero — no cache hit ever skips the Resolver's
calls because no cache exists. -/
theorem second_lookup_repeats_calls :
    (process_subtitle_data envEcho [] "happy" 1).2.countP
      (fun e => e.isServiceCall) = 2 ∧
    (process_subtitle_data envEcho [] "happy" 1).2 =
      (process_subtitle_data envEcho [] "happy" 0).2 :=
  ⟨rfl, rfl⟩

/-- Witness for C8 at a concrete repeated lookup. -/
theorem resolution_not_memoized_witness :
    ((process_subtitle_data envEcho [] "happy" 0).2.filter
        (fun e => e.isLexiconCheck || e.isServiceCall) =
      (process_subtitle_data envEcho [] "happy" 1).2.filter
        (fun e => e.isLexiconCheck || e.isServiceCall)) ∧
    (process_subtitle_data envEcho [] "happy" 1).2.countP
      (fun e => e.isServiceCall) ≠ 0 :=
  ⟨(resolution_not_memoized envEcho [] "happy" 0 1).1,
   (resolution_not_memoized envEcho [] "happy" 0 1).2 rfl⟩

/-- C9 (amended): when context is present AND the plain synonym query
returns a non-empty list, a second contextual query is issued and its top
result supersedes the plain query's top result; a token whose contextual
synonym is in the lexicon then resolves via that contextual word.  (In the
program itself `process_subtitle_data` never passes context, so this holds
of the resolver functions as called with explicit context.) -/
theorem contextual_synonym_supersedes (env : Env) (asl_data : List Entry) (word : String)
    (order k : Nat) (prev_word next_word : Option String)
    (s c : String) (srest crest : List String)
    (hctx : (prev_word.isSome || next_word.isSome) = true)
    (hsyn : env.synonyms word = s :: srest)
    (hcsyn : env.contextualSynonyms word prev_word next_word = c :: crest) :
    get_synonym env word prev_word next_word =
      (c, [Event.synonymQuery word,
           Event.contextualSynonymQuery word prev_word next_word]) ∧
    ((check_word_in_asl_data asl_data word).isEmpty = true →
      ∀ base_word, env.lemmaOf word = Except.ok base_word →
      (check_word_in_asl_data asl_data base_word).isEmpty = true →
      (check_word_in_asl_data asl_data c).isEmpty = false →
      (attempt_download_video env asl_data (k + 2) word order prev_word next_word
        false false).1 =
        Except.ok (download_loop env order c (check_word_in_asl_data asl_data c)).1) := by
  have hg : get_synonym env word prev_word next_word =
      (c, [Event.synonymQuery word,
           Event.contextualSynonymQuery word prev_word next_word]) := by
    simp [get_synonym, hsyn, hctx, hcsyn]
  refine ⟨hg, fun h base_word hb hbw hcw => ?_⟩
  rw [show k + 2 = (k + 1) + 1 from rfl,
    attempt_synonym_found env asl_data (k + 1) word order prev_word next_word base_word c
      [Event.synonymQuery word, Event.contextualSynonymQuery word prev_word next_word]
      h hb hbw hg hcw,
    attempt_found env asl_data k c order prev_word next_word false true hcw]

/-- C9 counterexample to the claim as stated: with context supplied but a
plain synonym list that comes back empty, `get_synonym` returns early and
no contextual query is ever issued. -/
theorem no_contextual_query_on_empty_plain :
    ((some "so" : Option String).isSome || (none : Option String).isSome) = true ∧
    envEcho.synonyms "happy" = [] ∧
    (get_synonym envEcho "happy" (some "so") none).2.countP
      (fun e => e.isContextualQuery) = 0 ∧
    (get_synonym envEcho "happy" (some "so") none).1 = "happy" :=
  ⟨rfl, rfl, rfl, rfl⟩

/-- Witness for C9: happy has plain synonyms glad and joyful, contextual
synonym content, and content is in the lexicon: resolution uses content,
not glad. -/
theorem contextual_synonym_supersedes_witness :
    (get_synonym envContext "happy" (some "so") (some "day") =
      ("content", [Event.synonymQuery "happy",
        Event.contextualSynonymQuery "happy" (some "so") (some "day")])) ∧
    (attempt_download_video envContext dataContent 2 "happy" 7 (some "so") (some "day")
        false false).1 =
      Except.ok (download_loop envContext 7 "content"
        (check_word_in_asl_data dataContent "content")).1 :=
  ⟨(contextual_synonym_supersedes envContext dataContent "happy" 7 0 (some "so")
      (some "day") "glad" "content" ["joyful"] [] rfl rfl rfl).1,
   (contextual_synonym_supersedes envContext dataContent "happy" 7 0 (some "so")
      (some "day") "glad" "content" ["joyful"] [] rfl rfl rfl).2 rfl "happy" rfl rfl rfl⟩

/-- With a morphology oracle that never raises, the per-token pipeline
never raises, whatever the lexicon, synonym service and download
behaviour. -/
theorem process_no_error (env : Env) (asl_data : List Entry) (word : String) (order : Nat)
    (hlem : ∀ w, ∃ v, env.lemmaOf w = Except.ok v) :
    ∃ r, (process_subtitle_data env asl_data word order).1 = Except.ok r := by
  rw [process_eq_attempt]
  by_cases h : (check_word_in_asl_data asl_data (normalize_word word)).isEmpty
  · rcases hlem (normalize_word word) with ⟨base_word, hb⟩
    by_cases hbw : (check_word_in_asl_data asl_data base_word).isEmpty
    · rcases hg : get_synonym env (normalize_word word) none none with ⟨synonym, evs0⟩
      by_cases hsw : (check_word_in_asl_data asl_data synonym).isEmpty
      · exact ⟨none, by
          rw [attempt_exhausted env asl_data 3 (normalize_word word) order none none
            base_word synonym evs0 h hb hbw hg hsw]⟩
      · rw [attempt_synonym_found env asl_data 3 (normalize_word word) order none none
            base_word synonym evs0 h hb hbw hg (by simpa using hsw),
          attempt_found env asl_data 2 synonym order none none false true
            (by simpa using hsw)]
        exact ⟨_, rfl⟩
    · rw [attempt_base_found env asl_data 3 (normalize_word word) order none none
          base_word h hb (by simpa using hbw),
        attempt_found env asl_data 2 base_word order none none true false
          (by simpa using hbw)]
      exact ⟨_, rfl⟩
  · rw [attempt_found env asl_data 3 (normalize_word word) order none none false false
      (by simpa using h)]
    exact ⟨_, rfl⟩

/-- C10 (amended): per-token failures of acquisition (downloads,
post-processing) or of the synonym service never abort the run — whenever
the morphology oracle never raises, every token is processed and the run
reaches assembly; it is only an exception escaping `get_base_form` that
aborts the whole run (see the counterexample). -/
theorem run_completes_when_lemmatizer_total (env : Env) (asl_data : List Entry)
    (subtitle_data : List String)
    (hlem : ∀ w, ∃ v, env.lemmaOf w = Except.ok v) :
    ∃ paths, collect_video_paths env asl_data subtitle_data.enum = Except.ok paths ∧
      run_main env asl_data subtitle_data =
        Except.ok (batch_concatenate_clips (sortVideoPaths paths) 10
          "concatenated_video.mp4") := by
  have key : ∀ l : List (Nat × String),
      ∃ paths, collect_video_paths env asl_data l = Except.ok paths := by
    intro l
    induction l with
    | nil => exact ⟨[], rfl⟩
    | cons tok rest ih =>
      obtain ⟨idx, word⟩ := tok
      rcases ih with ⟨paths, hp⟩
      rcases process_no_error env asl_data word idx hlem with ⟨r, hr⟩
      cases r with
      | none => exact ⟨paths, by simp [collect_video_paths, hr, hp]⟩
      | some path => exact ⟨path :: paths, by simp [collect_video_paths, hr, hp]⟩
  rcases key subtitle_data.enum with ⟨paths, hp⟩
  exact ⟨paths, hp, by simp [run_main, hp]⟩

/-- C10 counterexample to the claim as stated: an exception raised inside
the morphology lookup of the first token propagates through
`future.result()` and aborts the whole run — the second token's outcome is
never collected, even though processing it alone would have completed. -/
theorem worker_error_aborts_run :
    run_main envBoom [] ["a", "b"] = Except.error "boom" ∧
    (process_subtitle_data envBoom [] "b" 1).1 = Except.ok none :=
  ⟨rfl, rfl⟩

/-- Witness for C10: with every download failing but a total lemmatizer,
a two-token run still completes and reaches assembly. -/
theorem run_completes_witness :
    ∃ paths, collect_video_paths envDownloadsFail [] (["hello", "zz"].enum) =
        Except.ok paths ∧
      run_main envDownloadsFail [] ["hello", "zz"] =
        Except.ok (batch_concatenate_clips (sortVideoPaths paths) 10
          "concatenated_video.mp4") :=
  run_completes_when_lemmatizer_total envDownloadsFail [] ["hello", "zz"]
    (fun w => ⟨w, rfl⟩)
